import Mathlib

/-!
Verification of the listing-scraper pipeline of `src/app.py`.

The source is a Streamlit script; its computational core is the function
`role_priority` (lines 34-38) and the body of `pipeline` (lines 40-105).
We embed that core shallowly:

* Python strings are modelled as `List Char` (sequences of code points), so
  that every operation is structurally recursive and kernel-evaluable; the
  built-in string operations used by the source (`strip`, `lower`,
  `startswith`, lexicographic `<`, `", ".join`) are re-defined here on
  `List Char` with the same semantics (ASCII case mapping, code-point order).
* The external collaborators (`find_homepage_via_bing`, `crawl_site_for_emails`,
  `extract_emails_from_text` - imported from modules not part of this
  repository snapshot) are parameters of the embedded pipeline; the two that
  the source awaits inside the record loop may raise, so they return
  `Except Unit _`; `extract_emails_from_text` is total per its contract.
* The pandas dataframe is modelled as a `List Rec` of the five columns the
  loop reads or writes; `df.loc[:k-1, col] = values` becomes `zipWith`
  overwriting the first `k` rows and keeping the rest unchanged.
-/

namespace Scraper

/-- A Python string: a sequence of code points. -/
abbrev Str := List Char

/-- Python code-point lexicographic `<=` on strings (`e1 <= e2`). -/
def strLe : Str → Str → Bool
  | [], _ => true
  | _ :: _, [] => false
  | a :: s, b :: t => if a = b then strLe s t else decide (a < b)

/-- Python `e.startswith(p)`. -/
def startsWithL : Str → Str → Bool
  | _, [] => true
  | [], _ :: _ => false
  | a :: s, b :: t => a = b && startsWithL s t

/-- Python `e.lower()` (ASCII case mapping, which agrees with Python on the
ASCII addresses this program handles). -/
def lowerL (e : Str) : Str := e.map Char.toLower

/-- Python `s.strip()`: drop leading and trailing whitespace. -/
def pyStrip (l : Str) : Str :=
  ((l.dropWhile Char.isWhitespace).reverse.dropWhile Char.isWhitespace).reverse

/-- Python `", ".join(xs)`. -/
def joinComma : List Str → Str
  | [] => []
  | [x] => x
  | x :: y :: t => x ++ (", ".data) ++ joinComma (y :: t)

/-- Python `list(dict.fromkeys(xs))`: deduplicate keeping the first
occurrence of each element, in order (app.py line 97). -/
def dedupFirstAux (seen : List Str) : List Str → List Str
  | [] => []
  | a :: t => if a ∈ seen then dedupFirstAux seen t else a :: dedupFirstAux (a :: seen) t

/-- Entry point of `dedupFirstAux` with nothing seen yet. -/
def dedupFirst (l : List Str) : List Str := dedupFirstAux [] l

/-- The `roles` tuple of `role_priority` (app.py line 37). -/
def roles : List Str :=
  ["info@".data, "contact@".data, "sales@".data, "admin@".data,
   "support@".data, "help@".data]

/-- The inline role list of the role-only filter (app.py line 96).
Note it omits `"help@"`, unlike `roles`. -/
def filterRoles : List Str :=
  ["info@".data, "contact@".data, "sales@".data, "admin@".data, "support@".data]

/-- `any(e.lower().startswith(x) for x in rs)`: does the lower-cased address
begin with one of the given prefixes? (app.py lines 38 and 96). -/
def isRole (rs : List Str) (e : Str) : Bool := rs.any (fun x => startsWithL (lowerL e) x)

/-- The sort key comparison of `role_priority` (app.py line 38): Python sorts
ascending by the pair `(not e.lower().startswith(roles), e)`, i.e. role
addresses first (`False < True`), ties broken by the raw string `e`. -/
def roleLe (a b : Str) : Bool :=
  if isRole roles a = isRole roles b then strLe a b else isRole roles a

/-- `role_priority` (app.py lines 34-38):
`sorted(set(emails), key=lambda e: (not e.lower().startswith(roles), e))`.
`set(emails)` keeps one copy of each distinct (case-sensitive) string; since
the key is injective (its second component is `e` itself) the sorted result
is the unique `roleLe`-ordered enumeration of the distinct elements, which
`mergeSort` over `dedup` computes. -/
def role_priority (emails : List Str) : List Str :=
  if emails = [] then [] else (emails.dedup).mergeSort roleLe

/-- One dataframe row, with the five columns the pipeline loop reads or
writes: 회사명 (company), 주소 (address), 홈페이지 (homepage), 이메일 (email),
비고 (notes). The column-boosting at app.py lines 54-66 guarantees they all
exist, defaulting to the empty string. -/
structure Rec where
  company : Str
  addr : Str
  homepage : Str
  email : Str
  notes : Str
deriving DecidableEq

/-- One output row, app.py lines 100-104: 지역, 업종, 회사명, 주소, 이메일,
홈페이지, 수집일시. -/
structure OutRow where
  region : Str
  industry : Str
  company : Str
  addr : Str
  email : Str
  homepage : Str
  collectedAt : Str
deriving DecidableEq

/-- Homepage resolution for one row (app.py lines 71-77): strip the existing
value; if empty, query the search collaborator (which may raise) with
`f"{name} 공식 홈페이지 {sido} {sggu}".strip()`; a non-empty existing value is
returned as is, with no search call. The final `hp or ""` of line 77 is the
identity on strings. -/
def resolveHp (search : Str → Except Unit Str) (sido sggu : Str) (r : Rec) :
    Except Unit Str :=
  let name := pyStrip r.company
  let hp := pyStrip r.homepage
  if hp = [] then
    search (pyStrip (name ++ " 공식 홈페이지 ".data ++ sido ++ " ".data ++ sggu))
  else Except.ok hp

/-- The emails a row starts from (app.py lines 83-89): crawl the homepage if
it is non-empty; the `try/except` around the crawl turns any exception into
the empty list. -/
def collected (crawl : Str → Except Unit (List Str)) (r : Rec) : List Str :=
  if r.homepage = [] then []
  else
    match crawl r.homepage with
    | Except.ok es => es
    | Except.error _ => []

/-- Fallback extraction from the notes column (app.py lines 91-93): only when
the crawl produced nothing and the notes are non-empty. -/
def withFallback (crawl : Str → Except Unit (List Str)) (extract : Str → List Str)
    (r : Rec) : List Str :=
  if collected crawl r = [] ∧ r.notes ≠ [] then extract r.notes else collected crawl r

/-- The role-only filter (app.py lines 95-96), applied after the fallback:
keep the addresses whose lower-cased form starts with one of `filterRoles`. -/
def afterFilter (crawl : Str → Except Unit (List Str)) (extract : Str → List Str)
    (onlyRole : Bool) (r : Rec) : List Str :=
  if onlyRole then (withFallback crawl extract r).filter (fun e => isRole filterRoles e)
  else withFallback crawl extract r

/-- The email cell written for one row (app.py line 97):
`", ".join(dict.fromkeys(emails))`. -/
def emailsCell (crawl : Str → Except Unit (List Str)) (extract : Str → List Str)
    (onlyRole : Bool) (r : Rec) : Str :=
  joinComma (dedupFirst (afterFilter crawl extract onlyRole r))

/-- `df.loc[:len(hps)-1, "홈페이지"] = hps` (app.py line 78): overwrite the
homepage of the first `hps.length` rows, keep the rest unchanged. -/
def writeHps (records : List Rec) (hps : List Str) : List Rec :=
  (List.zipWith (fun r h => { r with homepage := h }) records hps)
    ++ records.drop hps.length

/-- `df.loc[:len(cells)-1, "이메일"] = cells` (app.py line 98). -/
def writeEmails (records : List Rec) (cells : List Str) : List Rec :=
  (List.zipWith (fun r c => { r with email := c }) records cells)
    ++ records.drop cells.length

/-- The record loops of the source `await` fallible collaborators with no
surrounding `try`; an exception anywhere aborts the whole loop. `mapE` is
that loop: it stops at the first error. -/
def mapE (f : α → Except Unit β) : List α → Except Unit (List β)
  | [] => Except.ok []
  | a :: t =>
    match f a with
    | Except.error e => Except.error e
    | Except.ok b =>
      match mapE f t with
      | Except.error e => Except.error e
      | Except.ok bs => Except.ok (b :: bs)

/-- The body of `pipeline` after dataframe normalisation (app.py lines 68-105):
resolve homepages for the first `limit` rows (line 70: `df.head(limit)`) -
an exception here aborts the run; write them back; compute email cells for
the first `limit` rows of the updated frame; write them back; then assemble
one output row per row of the FULL frame (line 101 uses `df`, not
`df.head(limit)`), all stamped with the single timestamp `now` taken by
line 104. -/
def pipeline (search : Str → Except Unit Str) (crawl : Str → Except Unit (List Str))
    (extract : Str → List Str) (onlyRole : Bool) (limit : Nat)
    (sido sggu industry now : Str) (records : List Rec) :
    Except Unit (List OutRow) :=
  match mapE (resolveHp search sido sggu) (records.take limit) with
  | Except.error e => Except.error e
  | Except.ok hps =>
    let recs1 := writeHps records hps
    let cells := (recs1.take limit).map (emailsCell crawl extract onlyRole)
    let recs2 := writeEmails recs1 cells
    Except.ok (recs2.map (fun r =>
      { region := pyStrip (sido ++ " ".data ++ sggu), industry := industry,
        company := r.company, addr := r.addr, email := r.email,
        homepage := r.homepage, collectedAt := now }))

instance {ε α : Type} [DecidableEq ε] [DecidableEq α] : DecidableEq (Except ε α) := fun a b =>
  match a, b with
  | Except.error e, Except.error f =>
    if h : e = f then isTrue (congrArg Except.error h)
    else isFalse (fun c => h (Except.error.inj c))
  | Except.ok x, Except.ok y =>
    if h : x = y then isTrue (congrArg Except.ok h)
    else isFalse (fun c => h (Except.ok.inj c))
  | Except.error _, Except.ok _ => isFalse (fun c => Except.noConfusion c)
  | Except.ok _, Except.error _ => isFalse (fun c => Except.noConfusion c)

/-- Modelled from the spec: "valid URL syntax" (section 3, HomepageResolver
invariant). The spec does not pin down a grammar; we use the weakest
reasonable reading: an absolute http(s) URL with no whitespace. The source
contains no validation at all, so any reasonable reading refutes the claim. -/
def wellFormedUrl (u : Str) : Bool :=
  (startsWithL u ("http://".data) || startsWithL u ("https://".data))
    && u.all (fun c => !c.isWhitespace)

/-!
### Order-theoretic facts about the sort key of `role_priority`

`strLe` is a total order on strings and `roleLe` is the induced
lexicographic order on the key pair `(not role, address)`; these make the
`mergeSort` in `role_priority` produce the unique sorted enumeration of the
distinct input addresses.
-/

theorem strLe_total (a b : Str) : strLe a b = true ∨ strLe b a = true := by
  induction a generalizing b with
  | nil => exact Or.inl rfl
  | cons x s ih =>
    cases b with
    | nil => exact Or.inr rfl
    | cons y t =>
      by_cases hxy : x = y
      · subst hxy
        simpa [strLe] using ih t
      · rcases lt_or_gt_of_ne hxy with h | h
        · left; simp [strLe, hxy, h]
        · right; simp [strLe, Ne.symm hxy, h]

theorem strLe_trans : ∀ {a b c : Str}, strLe a b = true → strLe b c = true → strLe a c = true := by
  intro a
  induction a with
  | nil => intro b c _ _; rfl
  | cons x s ih =>
    intro b c h1 h2
    cases b with
    | nil => simp [strLe] at h1
    | cons y t =>
      cases c with
      | nil => simp [strLe] at h2
      | cons z u =>
        by_cases hxy : x = y <;> by_cases hyz : y = z
        · subst hxy; subst hyz
          simp only [strLe, if_pos rfl] at h1 h2 ⊢
          exact ih h1 h2
        · subst hxy
          simp only [strLe, if_pos rfl, if_neg hyz] at h1 h2 ⊢
          exact h2
        · subst hyz
          simp only [strLe, if_pos rfl, if_neg hxy] at h1 h2 ⊢
          exact h1
        · have hxz : x ≠ z := by
            intro he
            subst he
            simp only [strLe, if_neg hxy, if_neg hyz, decide_eq_true_eq] at h1 h2
            exact absurd h2 (lt_asymm h1)
          simp only [strLe, if_neg hxy, if_neg hyz, if_neg hxz, decide_eq_true_eq] at h1 h2 ⊢
          exact lt_trans h1 h2

theorem strLe_antisymm : ∀ {a b : Str}, strLe a b = true → strLe b a = true → a = b := by
  intro a
  induction a with
  | nil =>
    intro b _ h2
    cases b with
    | nil => rfl
    | cons y t => simp [strLe] at h2
  | cons x s ih =>
    intro b h1 h2
    cases b with
    | nil => simp [strLe] at h1
    | cons y t =>
      by_cases hxy : x = y
      · subst hxy
        simp only [strLe, if_pos rfl] at h1 h2
        rw [ih h1 h2]
      · simp only [strLe, if_neg hxy, if_neg (Ne.symm hxy), decide_eq_true_eq] at h1 h2
        exact absurd h1 (lt_asymm h2)

theorem roleLe_total (a b : Str) : roleLe a b = true ∨ roleLe b a = true := by
  unfold roleLe
  by_cases h : isRole roles a = isRole roles b
  · rw [if_pos h, if_pos h.symm]
    exact strLe_total a b
  · rw [if_neg h, if_neg (Ne.symm h)]
    cases ha : isRole roles a
    · cases hb : isRole roles b
      · exact absurd (ha.trans hb.symm) h
      · exact Or.inr rfl
    · exact Or.inl rfl

theorem roleLe_trans : ∀ {a b c : Str},
    roleLe a b = true → roleLe b c = true → roleLe a c = true := by
  intro a b c h1 h2
  unfold roleLe at h1 h2 ⊢
  by_cases hab : isRole roles a = isRole roles b <;>
    by_cases hbc : isRole roles b = isRole roles c
  · rw [if_pos hab] at h1
    rw [if_pos hbc] at h2
    rw [if_pos (hab.trans hbc)]
    exact strLe_trans h1 h2
  · rw [if_pos hab] at h1
    rw [if_neg hbc] at h2
    rw [if_neg (by rw [hab]; exact hbc), hab]
    exact h2
  · rw [if_neg hab] at h1
    rw [if_pos hbc] at h2
    rw [if_neg (by rw [← hbc]; exact hab)]
    exact h1
  · rw [if_neg hab] at h1
    rw [if_neg hbc] at h2
    exact absurd (h1.trans h2.symm) hab

theorem roleLe_antisymm : ∀ {a b : Str}, roleLe a b = true → roleLe b a = true → a = b := by
  intro a b h1 h2
  unfold roleLe at h1 h2
  by_cases hab : isRole roles a = isRole roles b
  · rw [if_pos hab] at h1
    rw [if_pos hab.symm] at h2
    exact strLe_antisymm h1 h2
  · rw [if_neg hab] at h1
    rw [if_neg (Ne.symm hab)] at h2
    exact absurd (h1.trans h2.symm) hab

/-- The crawl collaborator with every exception replaced by "no emails":
used to state that the pipeline catches crawl exceptions. -/
def catchEmpty (crawl : Str → Except Unit (List Str)) : Str → Except Unit (List Str) :=
  fun u => Except.ok (match crawl u with | Except.ok es => es | Except.error _ => [])

/-!
### Claims
-/

unseal List.merge List.mergeSort in
/-- Claim C1 (code evaluated at the failing input): the pipeline never calls
`role_priority`; the email cell it writes (app.py line 97) is the
insertion-ordered deduplication of the collected set. On the collected set
`[sales@acme.example, info@acme.example]` the cell keeps that order, while
`role_priority` (which the claim says is applied) returns the addresses with
`info@` first. -/
theorem rank_never_applied_by_pipeline :
    emailsCell (fun _ => Except.ok ["sales@acme.example".data, "info@acme.example".data])
      (fun _ => []) true ⟨"Acme".data, [], "https://acme.example/".data, [], []⟩
      = ("sales@acme.example, info@acme.example").data
    ∧ role_priority ["sales@acme.example".data, "info@acme.example".data]
      = ["info@acme.example".data, "sales@acme.example".data] := by decide

/-- Claim C2 (code evaluated at the failing input): with the item limit set
to 50 and a listing batch of 51 records, the output table has 51 rows -
`df.head(limit)` caps only the two enrichment loops (app.py lines 70, 82),
while the output at line 101 is assembled from the full frame. -/
theorem output_rows_exceed_limit :
    Except.map List.length
      (pipeline (fun _ => Except.error ()) (fun _ => Except.ok []) (fun _ => []) true 50
        "서울특별시".data "강남구".data "의료기관".data "t".data
        (List.replicate 51 ⟨"A".data, "B".data, "http://a.cd".data, [], []⟩))
      = Except.ok 51 ∧ ¬ (51 ≤ 50) := by
  exact ⟨rfl, by decide⟩

/-- Claim C3 (code evaluated at the failing input): the role-only filter of
app.py line 96 lists only five prefixes and omits `"help@"`, although the
`roles` tuple of `role_priority` (line 37) includes it; an extracted
`help@acme.example` is removed by the filter and the record ends with an
empty email cell, contrary to the claim that it survives. -/
theorem help_role_dropped_by_filter :
    emailsCell (fun _ => Except.ok ["help@acme.example".data]) (fun _ => []) true
      ⟨"Acme".data, [], "https://acme.example/".data, [], []⟩ = []
    ∧ isRole roles "help@acme.example".data = true
    ∧ isRole filterRoles "help@acme.example".data = false := by decide

/-- Claim C4, counterexample: the homepage-search call (app.py line 76) is
not wrapped in any `try`; on a batch with one record whose homepage is empty
and a search collaborator that raises, the whole pipeline aborts with the
exception instead of degrading to an unresolved homepage. -/
theorem search_failure_aborts_batch :
    pipeline (fun _ => Except.error ()) (fun _ => Except.ok []) (fun _ => []) true 200
      "서울특별시".data "강남구".data "의료기관".data "t".data
      [⟨"Acme".data, "Addr".data, [], [], []⟩] = Except.error () := rfl

/-- Claim C4 as amended: only the crawl step is guarded (app.py lines 86-89);
replacing every crawl exception by "no emails found" leaves the whole
pipeline output unchanged, so a crawl failure never aborts the batch and the
record proceeds (with the notes fallback still applying). Exceptions from
the homepage search, by contrast, abort the batch (see the counterexample). -/
theorem crawl_exceptions_caught (search : Str → Except Unit Str)
    (crawl : Str → Except Unit (List Str)) (extract : Str → List Str)
    (onlyRole : Bool) (limit : Nat) (sido sggu industry now : Str) (records : List Rec) :
    pipeline search crawl extract onlyRole limit sido sggu industry now records
      = pipeline search (catchEmpty crawl) extract onlyRole limit sido sggu industry now records := by
  have hcell : ∀ r : Rec, emailsCell crawl extract onlyRole r
      = emailsCell (catchEmpty crawl) extract onlyRole r := by
    intro r
    have hcol : collected crawl r = collected (catchEmpty crawl) r := by
      unfold collected catchEmpty
      split
      · rfl
      · cases crawl r.homepage <;> rfl
    unfold emailsCell afterFilter withFallback
    rw [hcol]
  unfold pipeline
  cases hm : mapE (resolveHp search sido sggu) (records.take limit) with
  | error e => rfl
  | ok hps =>
    have hcells : ((writeHps records hps).take limit).map (emailsCell crawl extract onlyRole)
        = ((writeHps records hps).take limit).map (emailsCell (catchEmpty crawl) extract onlyRole) :=
      List.map_congr_left (fun r _ => hcell r)
    simp only [hcells]

unseal List.merge List.mergeSort in
/-- Claim C5, counterexample: the sort key of `role_priority` (app.py
line 38) breaks ties on the raw address `e`, not on `e.lower()`. On
`[INFO@b.cd, info@a.cd]` - both role accounts - the output keeps
`INFO@b.cd` first (uppercase code points sort before lowercase), although
its lower-cased form is strictly greater than that of `info@a.cd`; under
the claimed lower-cased tie-break the order would be reversed. -/
theorem tiebreak_uses_raw_case :
    role_priority ["INFO@b.cd".data, "info@a.cd".data]
      = ["INFO@b.cd".data, "info@a.cd".data]
    ∧ isRole roles "INFO@b.cd".data = true
    ∧ isRole roles "info@a.cd".data = true
    ∧ strLe (lowerL "info@a.cd".data) (lowerL "INFO@b.cd".data) = true
    ∧ lowerL "info@a.cd".data ≠ lowerL "INFO@b.cd".data := by decide

/-- Claim C5 as amended: `role_priority` orders first by membership in the
role-prefix list and breaks ties by lexicographic (code-point) order of the
address as written, case-sensitively: in the output, whenever `a` precedes
`b`, either `a` is a role account and `b` is not, or both have the same
role status and `a <= b` as raw strings. -/
theorem role_priority_order (l : List Str) :
    (role_priority l).Pairwise (fun a b =>
      (isRole roles a = true ∧ isRole roles b = false)
      ∨ (isRole roles a = isRole roles b ∧ strLe a b = true)) := by
  unfold role_priority
  split
  · exact List.Pairwise.nil
  · refine List.Pairwise.imp ?_
      (@List.sorted_mergeSort Str roleLe (fun a b c hab hbc => roleLe_trans hab hbc)
        (fun a b => by rcases roleLe_total a b with hx | hx <;> simp [hx]) l.dedup)
    intro a b hab
    unfold roleLe at hab
    by_cases h : isRole roles a = isRole roles b
    · rw [if_pos h] at hab
      exact Or.inr ⟨h, hab⟩
    · rw [if_neg h] at hab
      cases hb : isRole roles b
      · exact Or.inl ⟨hab, rfl⟩
      · exact absurd (hab.trans hb.symm) h

unseal List.merge List.mergeSort in
/-- Claim C6, counterexample: `set(emails)` deduplicates case-sensitively,
so the two casings `info@a.cd` and `INFO@a.cd` of one address stay distinct:
the output of `role_priority` has two entries while the case-insensitive
deduplication of the input has one. -/
theorem dedup_is_case_sensitive :
    (role_priority ["info@a.cd".data, "INFO@a.cd".data]).length = 2
    ∧ (dedupFirst (List.map lowerL ["info@a.cd".data, "INFO@a.cd".data])).length = 1 := by
  decide

/-- Claim C6 as amended: `role_priority` deduplicates case-sensitively
before ranking: its output cardinality equals the number of distinct
(case-sensitive) strings in the input; distinct casings of one address
remain separate entries. -/
theorem role_priority_length (l : List Str) :
    (role_priority l).length = l.dedup.length := by
  unfold role_priority
  split
  · rename_i he
    subst he
    rfl
  · exact (List.mergeSort_perm l.dedup roleLe).length_eq

/-- Claim C7, counterexample: the pipeline performs no URL-syntax check.
A record whose homepage field holds the ill-formed string `"not a url"` is
returned unchanged, and no search call is made (the search collaborator
here raises, so any call would surface as an error). -/
theorem unvalidated_homepage_kept :
    resolveHp (fun _ => Except.error ()) "서울특별시".data "강남구".data
      ⟨"Acme".data, [], "not a url".data, [], []⟩ = Except.ok ("not a url".data)
    ∧ wellFormedUrl ("not a url".data) = false := by decide

/-- Claim C7 as amended: any existing homepage that is non-empty after
stripping is returned unchanged with no search call, regardless of
well-formedness; the pipeline never validates URL syntax, so the resolved
homepage is the stripped existing string or whatever the search collaborator
returns (empty meaning unresolved). -/
theorem existing_homepage_kept (search : Str → Except Unit Str) (sido sggu : Str) (r : Rec)
    (h : pyStrip r.homepage ≠ []) :
    resolveHp search sido sggu r = Except.ok (pyStrip r.homepage) := by
  unfold resolveHp
  simp only [if_neg h]

/-- Witness for `existing_homepage_kept`: the ill-formed, whitespace-padded
homepage `" not a url "` is kept (stripped) and the raising search
collaborator is never called. -/
theorem existing_homepage_kept_witness :
    resolveHp (fun _ => Except.error ()) "s".data "g".data
      ⟨"A".data, [], " not a url ".data, [], []⟩ = Except.ok ("not a url".data) :=
  existing_homepage_kept (fun _ => Except.error ()) "s".data "g".data
    ⟨"A".data, [], " not a url ".data, [], []⟩ (by decide)

/-- Claim C8: the role-only filter is strict. If the crawl collects a
non-empty set none of whose members matches the filter's role prefixes, the
record's final email cell is empty - the notes fallback (which ran before
the filter) is not re-attempted, whatever `extract` would return. -/
theorem role_filter_strict (es : List Str) (extract : Str → List Str) (r : Rec)
    (hhp : r.homepage ≠ []) (hne : es ≠ [])
    (hnr : es.all (fun e => !(isRole filterRoles e)) = true) :
    emailsCell (fun _ => Except.ok es) extract true r = [] := by
  have hcol : collected (fun _ => Except.ok es) r = es := by
    unfold collected
    rw [if_neg hhp]
  have hfb : withFallback (fun _ => Except.ok es) extract r = es := by
    unfold withFallback
    rw [hcol, if_neg]
    exact fun hc => hne hc.1
  have haf : afterFilter (fun _ => Except.ok es) extract true r = [] := by
    unfold afterFilter
    rw [if_pos rfl, hfb]
    apply List.filter_eq_nil_iff.mpr
    intro a ha
    simpa using (List.all_eq_true.mp hnr) a ha
  unfold emailsCell
  rw [haf]
  rfl

/-- Witness for `role_filter_strict`: the extracted singleton
`{jane.doe@acme.example}` is emptied by the role-only filter even though the
record has non-empty notes and `extract` would yield an address. -/
theorem role_filter_strict_witness :
    emailsCell (fun _ => Except.ok ["jane.doe@acme.example".data])
      (fun _ => ["info@x.yz".data]) true
      ⟨"Acme".data, [], "https://acme.example/".data, [], "contact info@b.cd".data⟩ = [] :=
  role_filter_strict ["jane.doe@acme.example".data] (fun _ => ["info@x.yz".data])
    ⟨"Acme".data, [], "https://acme.example/".data, [], "contact info@b.cd".data⟩
    (by decide) (by decide) (by decide)

/-- Claim C9: `role_priority` depends only on the set of distinct input
strings: two email lists with the same members - in any order, with any
multiplicities - yield the identical output sequence, because the sort key
`(not role, address)` is injective and so determines a unique order. -/
theorem role_priority_set_invariant (l1 l2 : List Str)
    (h : ∀ x, x ∈ l1 ↔ x ∈ l2) : role_priority l1 = role_priority l2 := by
  by_cases h1 : l1 = []
  · subst h1
    have h2 : l2 = [] := by
      apply List.eq_nil_iff_forall_not_mem.mpr
      intro a ha
      exact (List.not_mem_nil a) ((h a).mpr ha)
    rw [h2]
  · have h2 : l2 ≠ [] := by
      intro he
      subst he
      rcases List.exists_mem_of_ne_nil l1 h1 with ⟨a, ha⟩
      exact (List.not_mem_nil a) ((h a).mp ha)
    unfold role_priority
    rw [if_neg h1, if_neg h2]
    haveI : IsAntisymm Str (fun a b => roleLe a b = true) :=
      ⟨fun a b hab hba => roleLe_antisymm hab hba⟩
    apply List.eq_of_perm_of_sorted (r := fun a b => roleLe a b = true)
    · refine ((List.mergeSort_perm l1.dedup roleLe).trans ?_).trans
        (List.mergeSort_perm l2.dedup roleLe).symm
      exact (List.perm_ext_iff_of_nodup (List.nodup_dedup l1) (List.nodup_dedup l2)).mpr
        (fun a => by simpa [List.mem_dedup] using h a)
    · exact @List.sorted_mergeSort Str roleLe (fun a b c hab hbc => roleLe_trans hab hbc)
        (fun a b => by rcases roleLe_total a b with hx | hx <;> simp [hx]) l1.dedup
    · exact @List.sorted_mergeSort Str roleLe (fun a b c hab hbc => roleLe_trans hab hbc)
        (fun a b => by rcases roleLe_total a b with hx | hx <;> simp [hx]) l2.dedup

/-- Witness for `role_priority_set_invariant`: a reordered input with a
duplicate added produces the identical output. -/
theorem role_priority_set_invariant_witness :
    role_priority ["b@x.cd".data, "a@x.cd".data]
      = role_priority ["a@x.cd".data, "b@x.cd".data, "b@x.cd".data] :=
  role_priority_set_invariant _ _
    (by intro x; simp [List.mem_cons]; tauto)

/-- Claim C10: the collection timestamp is sampled once, after the record
loops (app.py line 104 assigns a single scalar to the whole column), so
every row of a successful pipeline output carries the identical timestamp
string. -/
theorem timestamp_uniform (search : Str → Except Unit Str)
    (crawl : Str → Except Unit (List Str)) (extract : Str → List Str)
    (onlyRole : Bool) (limit : Nat) (sido sggu industry now : Str)
    (records : List Rec) (out : List OutRow)
    (h : pipeline search crawl extract onlyRole limit sido sggu industry now records
      = Except.ok out) :
    out.all (fun row => row.collectedAt == now) = true := by
  unfold pipeline at h
  cases hm : mapE (resolveHp search sido sggu) (records.take limit) with
  | error e =>
    rw [hm] at h
    cases h
  | ok hps =>
    rw [hm] at h
    simp only [Except.ok.injEq] at h
    subst h
    simp [List.all_eq_true, List.mem_map]

/-- Witness for `timestamp_uniform`: a one-record run whose single output
row carries the timestamp passed to the pipeline. -/
theorem timestamp_uniform_witness :
    ([(⟨"서울특별시".data, "의료기관".data, "A".data, "B".data, [],
        "http://a.cd".data, "2024-06-01 12:00:00".data⟩ : OutRow)].all
      (fun row => row.collectedAt == "2024-06-01 12:00:00".data)) = true :=
  timestamp_uniform (fun _ => Except.error ()) (fun _ => Except.ok []) (fun _ => []) true 200
    "서울특별시".data [] "의료기관".data "2024-06-01 12:00:00".data
    [⟨"A".data, "B".data, "http://a.cd".data, [], []⟩] _ rfl

end Scraper
